import Mathlib

/-!
Verification development for the voice-agent repository: the per-call
conversation state machine (voice-agent/src/server.js), the reply strategy
(aiAgent.js) and the outbound dialer (dialer.js), shallowly embedded in Lean.
-/

/-! ## Turns and replies (data model)

Mirrors the `{ role, content }` turn objects stored in `callHistories`
(server.js line 16) and the `{ text, shouldHangup }` values returned by
`getAgentReply` (aiAgent.js).
-/

inductive Role where
  | system
  | user
  | assistant
deriving DecidableEq

structure Turn where
  role : Role
  content : String
deriving DecidableEq

structure AgentReply where
  text : String
  shouldHangup : Bool
deriving DecidableEq

/-! ## JavaScript string primitives

`lowerStr` models JS `toLowerCase` on the alphabets this code base uses
(ASCII letters and the Russian Cyrillic block), `containsStr` models
`String.prototype.includes`, and `trimStr` models `String.prototype.trim`.
-/

def charLower (c : Char) : Char :=
  let n := c.toNat
  if 65 ≤ n ∧ n ≤ 90 then Char.ofNat (n + 32)
  else if 0x410 ≤ n ∧ n ≤ 0x42F then Char.ofNat (n + 32)
  else if n = 0x401 then Char.ofNat 0x451
  else c

def lowerStr (s : String) : String :=
  ⟨s.data.map charLower⟩

def leadsWith : List Char → List Char → Bool
  | [], _ => true
  | _ :: _, [] => false
  | a :: as, b :: bs => a == b && leadsWith as bs

def hasSub (pat : List Char) : List Char → Bool
  | [] => leadsWith pat []
  | c :: rest => leadsWith pat (c :: rest) || hasSub pat rest

def containsStr (s pat : String) : Bool :=
  hasSub pat.data s.data

def jsSpace (c : Char) : Bool :=
  c == ' ' || c == '\t' || c == '\n' || c == '\r'

def trimChars (l : List Char) : List Char :=
  ((l.dropWhile jsSpace).reverse.dropWhile jsSpace).reverse

def trimStr (s : String) : String :=
  ⟨trimChars s.data⟩

/-! ## Reply strategy (aiAgent.js)

`ruleBasedFallback` is aiAgent.js lines 21-30: the lowered input is scanned
for decline phrases, then contact-preference phrases, else a default
qualifying question is asked. `declineHeard` and `mailHeard` factor the two
`if` conditions verbatim.
-/

def declineHeard (text : String) : Bool :=
  containsStr text "не интересно" || containsStr text "неинтересно" ||
    containsStr text "не надо"

def mailHeard (text : String) : Bool :=
  containsStr text "почта" || containsStr text "email" ||
    containsStr text "письмо"

def closeReply : AgentReply :=
  ⟨"Понимаю, спасибо за время. Хорошего дня!", true⟩

def mailReply : AgentReply :=
  ⟨"Отправлю краткое письмо с описанием. Подскажите, пожалуйста, удобный e-mail?", false⟩

def qualifyReply : AgentReply :=
  ⟨"Скажите, пожалуйста, актуальна ли для вас оптимизация расходов и автоматизация в ближайший месяц?", false⟩

def ruleBasedFallback (userText : String) : AgentReply :=
  let text := lowerStr userText
  if declineHeard text then closeReply
  else if mailHeard text then mailReply
  else qualifyReply

/-- The fixed behavioral instruction sent as the system message
(aiAgent.js lines 9-11). -/
def SYSTEM_PROMPT : String :=
  "Ты — вежливый русскоязычный SDR-агент по холодным звонкам.\nТвоя цель — за 2-4 реплики выяснить потребности и предложить короткий созвон с менеджером.\nГовори короткими фразами (1-2 предложения), без жаргона. Если клиент явно не заинтересован — поблагодари и вежливо завершай разговор."

/-- aiAgent.js lines 13-19: a system preamble followed by the accumulated
history, role for role. -/
def buildMessagesFromHistory (history : List Turn) : List Turn :=
  ⟨Role.system, SYSTEM_PROMPT⟩ :: history

/-- aiAgent.js line 50: the hangup heuristic scans the lowered generated
text for closing-phrase markers. -/
def hangupMarkers (lc : String) : Bool :=
  containsStr lc "хорошего дня" || containsStr lc "до свидания" ||
    containsStr lc "до встречи" || containsStr lc "завершаю"

/-- aiAgent.js line 52: the fixed text substituted when the model returns an
empty completion. -/
def defaultAiText : String :=
  "Спасибо! Подскажите, пожалуйста, удобно ли будет на короткий звонок завтра?"

/-- Outcome of the external chat-completion call: `Except.error` models the
`catch` branch (aiAgent.js line 53), `Except.ok content` a completed call
whose `choices[0].message.content` is `content` (`none` when absent). -/
abbrev LmOutcome := Except String (Option String)

/-- aiAgent.js lines 32-57. `configured` models `openaiClient` being non-null
(lines 3-7); `outcome` stands for the awaited external call, the sole effect
of the function. The history argument only feeds the external call. -/
def getAgentReply (configured : Bool) (outcome : LmOutcome)
    (callHistory : List Turn) (latestUserText : String) : AgentReply :=
  if !configured then ruleBasedFallback latestUserText
  else
    match outcome with
    | Except.error _ => ruleBasedFallback latestUserText
    | Except.ok content =>
        let aiText := trimStr (content.getD "")
        let lc := lowerStr aiText
        let sh := hangupMarkers lc
        ⟨if aiText = "" then defaultAiText else aiText, sh⟩

/-! ## Conversation state machine (server.js)

The session store is the `callHistories` map (server.js line 17), modelled as
a function from session id to an optional history. `onCallStart` is the
`/voice` handler (lines 47-58), `onTurn` the `/gather` handler (lines 60-74),
parametrised by the reply function the handler awaits. The emitted
`Directive` is the argument triple given to `twimlResponse`.
-/

abbrev Store := String → Option (List Turn)

def emptyStore : Store := fun _ => none

structure Directive where
  message : String
  gatherNext : Bool
  hangup : Bool
deriving DecidableEq

def seedTurn : Turn := ⟨Role.system, "Начало звонка"⟩

/-- The fixed opening utterance of the `/voice` handler (server.js line 53). -/
def introText : String :=
  "Здравствуйте! Меня зовут Анна, я звоню по поводу краткого улучшения ваших бизнес-процессов. Удобно ли поговорить минуту?"

/-- server.js lines 47-58: unconditionally store a fresh single-element seed
history for the session id and answer with the opening prompt plus a gather. -/
def onCallStart (st : Store) (sid : String) : Store × Directive :=
  (fun s => if s = sid then some [seedTurn] else st s,
   ⟨introText, true, false⟩)

def userTurn (s : String) : Turn := ⟨Role.user, s⟩

def assistantTurn (s : String) : Turn := ⟨Role.assistant, s⟩

/-- server.js lines 60-74: fetch the history (`[]` when the id is absent,
line 64), push the user turn, obtain the reply, push the assistant turn,
store the result and answer with a gather or a hangup. `f` stands for the
awaited `getAgentReply`. -/
def onTurn (f : List Turn → String → AgentReply) (st : Store)
    (sid speech : String) : Store × Directive :=
  let history := (st sid).getD []
  let h1 := history ++ [userTurn speech]
  let r := f h1 speech
  let h2 := h1 ++ [assistantTurn r.text]
  (fun s => if s = sid then some h2 else st s,
   ⟨r.text, !r.shouldHangup, r.shouldHangup⟩)

/-- A sequence of `/gather` deliveries for one session id, in arrival order. -/
def runTurns (f : List Turn → String → AgentReply) (st : Store)
    (sid : String) : List String → Store
  | [] => st
  | s :: rest => runTurns f (onTurn f st sid s).1 sid rest

/-- `getAgentReply` as the `/gather` handler sees it when `OPENAI_API_KEY` is
absent: the external capability is disabled and only the rule-based fallback
runs. -/
def replyFallbackOnly (h : List Turn) (s : String) : AgentReply :=
  getAgentReply false (Except.ok none) h s

/-- The message list `getAgentReply` hands to the external chat-completion
call on one `/gather` delivery: server.js line 64-65 builds the history with
the pushed user turn, aiAgent.js lines 37-38 prepend the system preamble and
push the latest user text once more. -/
def onTurnMessages (st : Store) (sid speech : String) : List Turn :=
  buildMessagesFromHistory ((st sid).getD [] ++ [userTurn speech]) ++
    [userTurn speech]

/-! ## Outbound dialer (dialer.js) -/

/-- One CSV row: the optional `phone` column plus arbitrary further columns. -/
structure Contact where
  phone : Option String
  meta : List (String × String)
deriving DecidableEq

/-- JS truthiness of `row.phone` (dialer.js line 36): present and non-empty. -/
def phonePresent (r : Contact) : Bool :=
  match r.phone with
  | none => false
  | some s => s != ""

/-- dialer.js lines 30-43: keep exactly the rows whose `phone` field is
truthy. -/
def readContacts (rows : List Contact) : List Contact :=
  rows.filter phonePresent

inductive DialOutcome where
  | PLACED (externalCallId : String)
  | FAILED (reason : String)
deriving DecidableEq

structure DialJob where
  contact : Contact
  attemptIndex : Nat
  result : DialOutcome
deriving DecidableEq

/-- One loop body of `dialAll` (dialer.js lines 48-71): the `try` records the
created call sid, the `catch` records the error reason, and the loop goes on
either way. `placeCall` stands for `client.calls.create`. -/
def dialStep (placeCall : Contact → Except String String) (idx : Nat)
    (c : Contact) : DialJob :=
  match placeCall c with
  | Except.ok sid => ⟨c, idx, DialOutcome.PLACED sid⟩
  | Except.error e => ⟨c, idx, DialOutcome.FAILED e⟩

/-- The `for` loop of dialer.js lines 47-71 with its 1-based `index` counter. -/
def dialAllFrom (placeCall : Contact → Except String String) (index : Nat) :
    List Contact → List DialJob
  | [] => []
  | c :: rest =>
      dialStep placeCall (index + 1) c :: dialAllFrom placeCall (index + 1) rest

/-- dialer.js lines 45-72: attempt every contact in order, starting the index
counter at 0. -/
def dialAll (placeCall : Contact → Except String String)
    (contacts : List Contact) : List DialJob :=
  dialAllFrom placeCall 0 contacts

/-- dialer.js line 46: `Math.max(5000, Math.floor(60000 / Math.max(1, rate)))`
over integral rates. -/
def intervalMs (rate : Nat) : Nat :=
  max 5000 (60000 / max 1 rate)

/-- The normal form of a placement outcome as a job result. -/
def outcomeOf (r : Except String String) : DialOutcome :=
  match r with
  | Except.ok sid => DialOutcome.PLACED sid
  | Except.error e => DialOutcome.FAILED e

/-- dialer.js lines 74-83: read and filter the CSV, abort with a fatal error
when nothing is left, otherwise dial every remaining contact. -/
def mainRun (placeCall : Contact → Except String String)
    (rows : List Contact) : Except String (List DialJob) :=
  let contacts := readContacts rows
  if contacts.isEmpty then Except.error "В CSV нет записей с полем phone"
  else Except.ok (dialAll placeCall contacts)

/-! ## Spec-shaped descriptions

`turnPairs` renders §8 of the design spec: per `onTurn` call, one user turn
carrying the spoken input followed by one assistant turn carrying the reply
generated from the history including that user turn. `userContents` extracts
the spoken inputs in transcript order.
-/

def turnPairs (f : List Turn → String → AgentReply) (h : List Turn) :
    List String → List Turn
  | [] => []
  | s :: rest =>
      let hu := h ++ [userTurn s]
      let r := f hu s
      userTurn s :: assistantTurn r.text ::
        turnPairs f (hu ++ [assistantTurn r.text]) rest

def userContents (l : List Turn) : List String :=
  (l.filter fun t => decide (t.role = Role.user)).map Turn.content

/-! ## Helper lemmas -/

theorem runTurns_eq (f : List Turn → String → AgentReply) (sid : String)
    (inputs : List String) :
    ∀ (st : Store) (h : List Turn), st sid = some h →
      runTurns f st sid inputs sid = some (h ++ turnPairs f h inputs) := by
  induction inputs with
  | nil =>
      intro st h hst
      simpa [runTurns, turnPairs] using hst
  | cons s rest ih =>
      intro st h hst
      have hst' : (onTurn f st sid s).1 sid =
          some ((h ++ [userTurn s]) ++
            [assistantTurn (f (h ++ [userTurn s]) s).text]) := by
        simp [onTurn, hst]
      show runTurns f (onTurn f st sid s).1 sid rest sid = _
      rw [ih _ _ hst']
      simp [turnPairs, List.append_assoc]

theorem turnPairs_length (f : List Turn → String → AgentReply)
    (inputs : List String) :
    ∀ h : List Turn, (turnPairs f h inputs).length = 2 * inputs.length := by
  induction inputs with
  | nil => intro h; simp [turnPairs]
  | cons s rest ih =>
      intro h
      simp [turnPairs, ih]
      omega

theorem turnPairs_userContents (f : List Turn → String → AgentReply)
    (inputs : List String) :
    ∀ h : List Turn, userContents (turnPairs f h inputs) = inputs := by
  induction inputs with
  | nil => intro h; simp [turnPairs, userContents]
  | cons s rest ih =>
      intro h
      simp [turnPairs, userContents, userTurn, assistantTurn] at *
      exact ih _

/-- A concrete store holding an already-advanced session "A". -/
def storeWithHistory : Store := fun s =>
  if s = "A" then some [seedTurn, userTurn "да", assistantTurn "ок"] else none

def isFailedJob (j : DialJob) : Bool :=
  match j.result with
  | DialOutcome.FAILED _ => true
  | _ => false

def placeErrs (r : Except String String) : Bool :=
  match r with
  | Except.error _ => true
  | _ => false

theorem dialStep_eq (pc : Contact → Except String String) (i : Nat)
    (c : Contact) : dialStep pc i c = ⟨c, i, outcomeOf (pc c)⟩ := by
  cases h : pc c <;> simp [dialStep, outcomeOf, h]

theorem dialAllFrom_map_contact (pc : Contact → Except String String)
    (cs : List Contact) :
    ∀ i : Nat, (dialAllFrom pc i cs).map DialJob.contact = cs := by
  induction cs with
  | nil => intro i; rfl
  | cons c rest ih =>
      intro i
      simp [dialAllFrom, dialStep_eq, ih]

theorem dialAllFrom_map_idx (pc : Contact → Except String String)
    (cs : List Contact) :
    ∀ i : Nat,
      (dialAllFrom pc i cs).map DialJob.attemptIndex =
        List.range' (i + 1) cs.length := by
  induction cs with
  | nil => intro i; rfl
  | cons c rest ih =>
      intro i
      simp [dialAllFrom, dialStep_eq, ih, List.range']

theorem dialAllFrom_results (pc : Contact → Except String String)
    (cs : List Contact) :
    ∀ i : Nat,
      ((dialAllFrom pc i cs).all fun j =>
        decide (j.result = outcomeOf (pc j.contact))) = true := by
  induction cs with
  | nil => intro i; rfl
  | cons c rest ih =>
      intro i
      simp [dialAllFrom, dialStep_eq, ih]

theorem dialAllFrom_failed_count (pc : Contact → Except String String)
    (cs : List Contact) :
    ∀ i : Nat,
      ((dialAllFrom pc i cs).filter isFailedJob).length =
        (cs.filter fun c => placeErrs (pc c)).length := by
  induction cs with
  | nil => intro i; rfl
  | cons c rest ih =>
      intro i
      cases h : pc c <;>
        simp [dialAllFrom, dialStep, isFailedJob, placeErrs, h,
          List.filter_cons, ih]

theorem dialAllFrom_length (pc : Contact → Except String String)
    (cs : List Contact) :
    ∀ i : Nat, (dialAllFrom pc i cs).length = cs.length := by
  induction cs with
  | nil => intro i; rfl
  | cons c rest ih =>
      intro i
      simp [dialAllFrom, ih]

/-! ## Claim theorems -/

/-- C1: for a fixed session id, after `onCallStart` followed by the `onTurn`
calls for `inputs`, the stored history is exactly the seed system turn
followed, per call and in call order, by a user turn carrying the spoken
input and an assistant turn carrying the generated reply; its length is
1 + 2N and the user turns spell out the inputs in order. -/
theorem history_after_turns (f : List Turn → String → AgentReply)
    (st : Store) (sid : String) (inputs : List String) :
    runTurns f (onCallStart st sid).1 sid inputs sid =
      some (seedTurn :: turnPairs f [seedTurn] inputs) ∧
    (seedTurn :: turnPairs f [seedTurn] inputs).length =
      1 + 2 * inputs.length ∧
    userContents (seedTurn :: turnPairs f [seedTurn] inputs) = inputs := by
  refine ⟨?_, ?_, ?_⟩
  · have h0 : (onCallStart st sid).1 sid = some [seedTurn] := by
      simp [onCallStart]
    simpa using runTurns_eq f sid inputs _ _ h0
  · simp [turnPairs_length]
    omega
  · simp [userContents, seedTurn]
    have := turnPairs_userContents f inputs [seedTurn]
    simpa [userContents] using this

/-- C2 counterexample: with the fallback reply strategy, a decline turn emits
a hangup directive and leaves a 3-turn history, yet a further `onTurn` on the
same session id still advances the history to 5 turns — the code keeps no
ENDED state. -/
theorem hangup_not_terminal_cex :
    (onTurn replyFallbackOnly (onCallStart emptyStore "A").1 "A"
        "не интересно").2.hangup = true ∧
    (((onTurn replyFallbackOnly (onCallStart emptyStore "A").1 "A"
        "не интересно").1 "A").getD []).length = 3 ∧
    (((onTurn replyFallbackOnly
        ((onTurn replyFallbackOnly (onCallStart emptyStore "A").1 "A"
          "не интересно").1) "A" "привет").1 "A").getD []).length = 5 := by
  decide

/-- C2 amended: the server records no session state, so hangup is not
terminal: every `onTurn` call — in particular one arriving after a hangup
directive was emitted — appends one user and one assistant turn to the
session history. -/
theorem onTurn_always_appends (f : List Turn → String → AgentReply)
    (st : Store) (sid s : String) :
    (onTurn f st sid s).1 sid =
      some ((st sid).getD [] ++
        [userTurn s,
         assistantTurn (f ((st sid).getD [] ++ [userTurn s]) s).text]) := by
  simp [onTurn]

/-- C3 counterexample: an `onTurn` for a session id absent from the store
does not fail: it silently proceeds from the empty history and stores a
2-turn history without the seed turn. -/
theorem unknown_session_cex :
    emptyStore "X" = none ∧
    (onTurn replyFallbackOnly emptyStore "X" "привет").1 "X" =
      some [userTurn "привет", assistantTurn qualifyReply.text] := by
  decide

/-- C3 amended: for a session id absent from the store, `onTurn` raises no
UnknownSession error; it proceeds with the empty history and stores exactly
the user turn and the assistant turn. -/
theorem onTurn_unknown_session (f : List Turn → String → AgentReply)
    (st : Store) (sid s : String) (habs : st sid = none) :
    (onTurn f st sid s).1 sid =
      some [userTurn s, assistantTurn (f [userTurn s] s).text] := by
  simp [onTurn, habs]

/-- C3 witness: the amended statement at the empty store and a concrete
session id. -/
theorem onTurn_unknown_session_witness :
    emptyStore "Y" = none ∧
    (onTurn replyFallbackOnly emptyStore "Y" "тест").1 "Y" =
      some [userTurn "тест",
        assistantTurn (replyFallbackOnly [userTurn "тест"] "тест").text] :=
  ⟨rfl, onTurn_unknown_session replyFallbackOnly emptyStore "Y" "тест" rfl⟩

/-- C4 counterexample: an empty completion on a decline input yields the
fixed default prompt with no hangup, not the rule-based fallback reply
(which would close the call). -/
theorem empty_completion_cex :
    getAgentReply true (Except.ok (some "")) [] "не интересно" =
      ⟨defaultAiText, false⟩ ∧
    ruleBasedFallback "не интересно" = closeReply ∧
    (⟨defaultAiText, false⟩ : AgentReply) ≠ closeReply := by
  decide

/-- C4 amended: `getAgentReply` never raises (it is total): an erroring
language-model call is recovered by the rule-based fallback, an absent or
empty completion yields the fixed default prompt with `shouldHangup = false`,
and a disabled capability always takes the rule-based fallback. -/
theorem reply_error_recovery (e : String) (out : LmOutcome)
    (h : List Turn) (input : String) :
    getAgentReply true (Except.error e) h input = ruleBasedFallback input ∧
    getAgentReply true (Except.ok none) h input = ⟨defaultAiText, false⟩ ∧
    getAgentReply true (Except.ok (some "")) h input =
      ⟨defaultAiText, false⟩ ∧
    getAgentReply false out h input = ruleBasedFallback input :=
  ⟨rfl, rfl, rfl, rfl⟩

/-- C5: with the external capability disabled, any input whose lowered text
contains a decline phrase makes `reply` return the polite closing text with
`shouldHangup = true`, for any history and any pending outcome. -/
theorem fallback_decline_hangs_up (out : LmOutcome) (h : List Turn)
    (input : String) (hd : declineHeard (lowerStr input) = true) :
    getAgentReply false out h input = closeReply ∧
    closeReply.shouldHangup = true := by
  refine ⟨?_, rfl⟩
  simp [getAgentReply, ruleBasedFallback, hd]

/-- C5 witness: the decline input "не интересно" on the empty history. -/
theorem fallback_decline_hangs_up_witness :
    declineHeard (lowerStr "не интересно") = true ∧
    (getAgentReply false (Except.ok none) [] "не интересно" = closeReply ∧
      closeReply.shouldHangup = true) :=
  ⟨by decide,
   fallback_decline_hangs_up (Except.ok none) [] "не интересно" (by decide)⟩

/-- C6: for every positive rate, the inter-call wait interval is
`max 5000 (60000 / rate)` with integer floor division, so an excessive rate
is silently clamped to the 5000 ms floor. -/
theorem interval_formula (rate : Nat) (hpos : 0 < rate) :
    intervalMs rate = max 5000 (60000 / rate) := by
  unfold intervalMs
  rw [Nat.max_eq_right hpos]

/-- C6 witness: the default rate of 12 calls per minute. -/
theorem interval_formula_witness :
    0 < 12 ∧ intervalMs 12 = max 5000 (60000 / 12) :=
  ⟨by decide, interval_formula 12 (by decide)⟩

/-- C7: the dialer attempts every contact exactly once in input order with
1-based attempt indices, each job's result comes from that contact's own
placement alone, and the batch reports exactly as many FAILED jobs as
contacts whose placement errors — failures neither halt the batch nor
trigger retries. -/
theorem dialer_isolated (pc : Contact → Except String String)
    (cs : List Contact) :
    (dialAll pc cs).map DialJob.contact = cs ∧
    (dialAll pc cs).map DialJob.attemptIndex = List.range' 1 cs.length ∧
    ((dialAll pc cs).all fun j =>
      decide (j.result = outcomeOf (pc j.contact))) = true ∧
    ((dialAll pc cs).filter isFailedJob).length =
      (cs.filter fun c => placeErrs (pc c)).length :=
  ⟨dialAllFrom_map_contact pc cs 0, dialAllFrom_map_idx pc cs 0,
   dialAllFrom_results pc cs 0, dialAllFrom_failed_count pc cs 0⟩

/-- C8: rows without a truthy phone field are removed before the dialing
loop: the batch aborts with the fatal error exactly when nothing remains
after filtering, otherwise it dials precisely the filtered rows, every
surviving row has a phone, and the job count equals the filtered count, so
dropped rows consume no pacing slot. -/
theorem contacts_filtered_before_dial (pc : Contact → Except String String)
    (rows : List Contact) :
    mainRun pc rows =
      (if readContacts rows = []
       then Except.error "В CSV нет записей с полем phone"
       else Except.ok (dialAll pc (readContacts rows))) ∧
    ((readContacts rows).all phonePresent) = true ∧
    (dialAll pc (readContacts rows)).length =
      (readContacts rows).length := by
  refine ⟨?_, ?_, dialAllFrom_length pc (readContacts rows) 0⟩
  · cases hr : readContacts rows with
    | nil => simp [mainRun, hr]
    | cons c rest => simp [mainRun, hr]
  · simp [readContacts, List.all_eq_true]

/-- C9: a call-start event unconditionally replaces any existing history for
that session id with the single seed system turn. -/
theorem callStart_resets (st : Store) (sid : String) (prior : List Turn)
    (hexists : st sid = some prior) :
    (onCallStart st sid).1 sid = some [seedTurn] := by
  simp [onCallStart]

/-- C9 witness: a session that already accumulated three turns is reset. -/
theorem callStart_resets_witness :
    storeWithHistory "A" =
      some [seedTurn, userTurn "да", assistantTurn "ок"] ∧
    (onCallStart storeWithHistory "A").1 "A" = some [seedTurn] :=
  ⟨rfl, callStart_resets storeWithHistory "A"
    [seedTurn, userTurn "да", assistantTurn "ок"] rfl⟩

/-- C10: with the capability configured, the message list handed to the
language model on one turn is the system preamble, the stored history, and
then the latest user utterance twice — once as the user turn the server
pushed into the history and once appended again by the reply strategy. -/
theorem lm_messages_duplicate_user (st : Store) (sid speech : String) :
    onTurnMessages st sid speech =
      ⟨Role.system, SYSTEM_PROMPT⟩ ::
        ((st sid).getD [] ++ [userTurn speech, userTurn speech]) := by
  simp [onTurnMessages, buildMessagesFromHistory]
